import Mathlib

/-
Verification development for the card-generation pipeline
(generate_cards.py and scripts/generate_cards.py).

Python strings are modelled as lists of characters (`PyStr`), Python
floats as exact rationals, the filesystem / font / image backends as
explicit oracle functions bundled in an `Env` record, and the drawing
surface as a trace of drawing operations.  All definitions are
transcriptions of the Python source except where a doc comment says
`Modelled from the spec:`.
-/

namespace CardGen

/-- Python strings, modelled as lists of characters. -/
abbrev PyStr := List Char

/-- ASCII whitespace recognised by Python `str.strip()` / `float()`
(space, tab, newline, carriage return, vertical tab, form feed). -/
def isPySpace (c : Char) : Bool :=
  c == ' ' || c == '\t' || c == '\n' || c == '\r' || c == '\x0b' || c == '\x0c'

/-- Python `str.strip()`: drop leading and trailing whitespace. -/
def pyStrip (l : PyStr) : PyStr :=
  (((l.dropWhile isPySpace).reverse).dropWhile isPySpace).reverse

/-- Value of a list of decimal digit characters, most significant first. -/
def digitsToNat (l : PyStr) : ℕ :=
  l.foldl (fun a c => 10 * a + (c.toNat - 48)) 0

/-- Optional leading sign of a Python numeric literal. -/
def parseSign : PyStr → ℤ × PyStr
  | '+' :: r => (1, r)
  | '-' :: r => (-1, r)
  | l => (1, l)

/-- Python `round` to an integer: round half to even (banker's rounding). -/
def pyRound (q : ℚ) : ℤ :=
  if q - (⌊q⌋ : ℚ) < 1 / 2 then ⌊q⌋
  else if (1 / 2 : ℚ) < q - (⌊q⌋ : ℚ) then ⌊q⌋ + 1
  else if ⌊q⌋ % 2 = 0 then ⌊q⌋ else ⌊q⌋ + 1

/-- The codepoints Python's `float(str)` pre-transform
(`_PyUnicode_TransformDecimalAndSpaceToASCII`) maps to an ASCII space: the
Unicode White_Space set as compiled into this CPython (Unicode 14.0),
enumerated exhaustively against the interpreter: 9-13, 32, 0x85, 0xA0,
0x1680, 0x2000-0x200A, 0x2028, 0x2029, 0x202F, 0x205F, 0x3000. -/
def pyUnicodeWS (n : ℕ) : Bool :=
  (9 ≤ n && n ≤ 13) || n == 32 || n == 133 || n == 160 || n == 5760 ||
  (8192 ≤ n && n ≤ 8202) || n == 8232 || n == 8233 || n == 8239 || n == 8287 ||
  n == 12288

/-- First codepoints of the 66 runs of ten consecutive Unicode decimal
digits (general category Nd, Unicode 14.0 as compiled into this CPython,
enumerated exhaustively against the interpreter): the character `base + d`
is the digit of value `d`. -/
def ndBases : List ℕ :=
  [48, 1632, 1776, 1984, 2406, 2534, 2662, 2790, 2918, 3046, 3174, 3302,
   3430, 3558, 3664, 3792, 3872, 4160, 4240, 6112, 6160, 6470, 6608, 6784,
   6800, 6992, 7088, 7232, 7248, 42528, 43216, 43264, 43472, 43504, 43600,
   44016, 65296, 66720, 68912, 69734, 69872, 69942, 70096, 70384, 70736,
   70864, 71248, 71360, 71472, 71904, 72016, 72784, 73040, 73120, 92768,
   92864, 93008, 120782, 120792, 120802, 120812, 120822, 123200, 123632,
   125264, 130032]

/-- `Py_UNICODE_TODECIMAL`: the decimal value of a Unicode Nd digit. -/
def pyToDecimal (c : Char) : Option ℕ :=
  (ndBases.find? (fun b => b ≤ c.toNat && c.toNat ≤ b + 9)).map
    (fun b => c.toNat - b)

/-- One character of the `float(str)` pre-transform: Unicode whitespace
becomes a space, Unicode decimal digits become their ASCII digit, other
ASCII is kept, and any other character becomes `?` (which the numeric
grammar then rejects). -/
def pyTransChar (c : Char) : Char :=
  if pyUnicodeWS c.toNat then ' '
  else
    match pyToDecimal c with
    | some d => Char.ofNat (48 + d)
    | none => if c.toNat < 128 then c else '?'

/-- The `float(str)` pre-transform applied to a whole string. -/
def pyTransform (l : PyStr) : PyStr := l.map pyTransChar

/-- A run of ASCII digits possibly separated by single underscores, as
Python numeric literals allow since 3.6 (`1_000`): returns the digits with
the underscores removed, and the unconsumed rest.  An underscore not
strictly between two digits is left in the rest (where the surrounding
grammar then rejects it, as `float` does). -/
def takeDigitsU : PyStr → PyStr × PyStr
  | [] => ([], [])
  | c1 :: '_' :: c2 :: rest =>
    if c1.isDigit then
      if c2.isDigit then
        let pr := takeDigitsU (c2 :: rest)
        (c1 :: pr.1, pr.2)
      else ([c1], '_' :: c2 :: rest)
    else ([], c1 :: '_' :: c2 :: rest)
  | c1 :: rest =>
    if c1.isDigit then
      let pr := takeDigitsU rest
      (c1 :: pr.1, pr.2)
    else ([], c1 :: rest)

/-- Exponent tail of a float literal: optional sign and a digit run, which
must consume the whole rest.  The parsed value is returned as a pair
`(mantissa, decimal exponent)` with value `mantissa * 10 ^ exponent`. -/
def expTail (sg : ℤ) (digits : PyStr) (fracLen : ℕ) (r : PyStr) :
    Option (ℤ × ℤ) :=
  let es := parseSign r
  let ed := takeDigitsU es.2
  if ed.1.isEmpty || !ed.2.isEmpty then none
  else some (sg * (digitsToNat digits : ℤ),
    es.1 * (digitsToNat ed.1 : ℤ) - (fracLen : ℤ))

/-- After the mantissa digits: end of input, or an `e`/`E` exponent. -/
def mantissaTail (sg : ℤ) (digits : PyStr) (fracLen : ℕ) :
    PyStr → Option (ℤ × ℤ)
  | [] => some (sg * (digitsToNat digits : ℤ), -(fracLen : ℤ))
  | 'e' :: r => expTail sg digits fracLen r
  | 'E' :: r => expTail sg digits fracLen r
  | _ => none

/-- The textual decimal grammar of Python `float(str)`: Unicode transform,
strip, optional sign, digits with an optional point (underscores allowed
between digits), optional exponent.  The exact value is returned
unevaluated as `(mantissa, decimal exponent)`.  The spellings
`inf`/`infinity`/`nan` are not in this grammar: `float` accepts them, but
`int(round(...))` then raises `OverflowError`/`ValueError`, so through
`format_currency` they behave exactly like a parse failure (`"N/A"`). -/
def pyDecimalParse (s : PyStr) : Option (ℤ × ℤ) :=
  let t := pyStrip (pyTransform s)
  let s1 := parseSign t
  let ip := takeDigitsU s1.2
  match ip.2 with
  | '.' :: r2 =>
    let fp := takeDigitsU r2
    if ip.1.isEmpty && fp.1.isEmpty then none
    else mantissaTail s1.1 (ip.1 ++ fp.1) fp.1.length fp.2
  | r1 =>
    if ip.1.isEmpty then none
    else mantissaTail s1.1 ip.1 0 r1

/-- Exponent of the IEEE-754 binary64 representation of `q`: 52 below its
binary magnitude, clamped at the subnormal limit `2 ^ -1074`. -/
def doubleExp (q : ℚ) : ℤ := max (Int.log 2 |q| - 52) (-1074)

/-- Magnitude of `q` correctly rounded (half to even) to 53 significant
bits: the mantissa `round(|q| * 2 ^ -p)` scaled back by `2 ^ p`. -/
def doubleAbs (q : ℚ) : ℚ :=
  (pyRound (|q| * (2 : ℚ) ^ (-doubleExp q)) : ℚ) * (2 : ℚ) ^ doubleExp q

/-- Conversion of an exact rational to the nearest IEEE-754 binary64 value
(CPython's `float(str)` is correctly rounded): `none` models overflow to
infinity (magnitude rounding to `2 ^ 1024` or beyond), after which
`int(round(v))` raises `OverflowError` and `format_currency` returns
`"N/A"`. -/
def toDouble (q : ℚ) : Option ℚ :=
  if q = 0 then some 0
  else if (2 : ℚ) ^ (1024 : ℤ) ≤ doubleAbs q then none
  else if 0 ≤ q then some (doubleAbs q) else some (-doubleAbs q)

/-- Model of Python `float(value)` on strings through `format_currency`:
parse the decimal grammar, then convert the exact value to the nearest
finite binary64 double; `none` is a `ValueError` from parsing or a
non-finite result. -/
def pyFloatParse (s : PyStr) : Option ℚ :=
  (pyDecimalParse s).bind fun me => toDouble ((me.1 : ℚ) * (10 : ℚ) ^ me.2)

/-- Decimal digit characters of a natural number, most significant first. -/
def natDigits (n : ℕ) : PyStr :=
  if h : n < 10 then [Char.ofNat (48 + n)]
  else natDigits (n / 10) ++ [Char.ofNat (48 + n % 10)]
termination_by n
decreasing_by exact Nat.div_lt_self (by omega) (by omega)

/-- Insert a comma after every third character of a reversed digit string:
this is Python's `,` format grouping viewed from the right. -/
def group3Rev : PyStr → PyStr
  | a :: b :: c :: d :: rest => a :: b :: c :: ',' :: group3Rev (d :: rest)
  | l => l
termination_by l => l.length
decreasing_by simp

/-- Digits of `n` grouped in threes with commas, as in Python `f"{n:,}"`. -/
def natGroup (n : ℕ) : PyStr :=
  (group3Rev (natDigits n).reverse).reverse

/-- Model of Python `f"{z:,}"` for an integer `z`. -/
def pyFormatComma (z : ℤ) : PyStr :=
  (if z < 0 then ['-'] else []) ++ natGroup z.natAbs

/-- Plain (ungrouped) decimal representation of an integer. -/
def intDigitsRepr (z : ℤ) : PyStr :=
  (if z < 0 then ['-'] else []) ++ natDigits z.natAbs

/-- Checks, on a REVERSED string, that it consists of comma-separated groups
of decimal digits: groups of exactly three from the right, with a final
(leftmost) group of one to three digits. -/
def revGroupedOk : PyStr → Bool
  | [] => false
  | [a] => a.isDigit
  | [a, b] => a.isDigit && b.isDigit
  | [a, b, c] => a.isDigit && b.isDigit && c.isDigit
  | a :: b :: c :: ',' :: rest => a.isDigit && b.isDigit && c.isDigit && revGroupedOk rest
  | _ => false
termination_by l => l.length
decreasing_by simp; omega

/-- The currency prefix the program actually emits.  The source file's
f-string literal is the byte sequence C3 A2 E2 80 9A C2 B9 (verified
against both copies of the file), which Python 3's UTF-8 source decoding
reads as the three characters U+00E2, U+201A, U+00B9 — the mojibake of a
rupee sign, not the single character U+20B9. -/
def RUPEE : PyStr := ['\u00E2', '\u201A', '\u00B9']

/-- Transcription of `format_currency` (src/generate_cards.py lines 152-158;
the copy in src/scripts/generate_cards.py lines 117-122 is byte-identical):
`float(value)`, then the f-string prefix followed by `int(round(v))` with
comma grouping; every exception — unparseable text, or the
`OverflowError`/`ValueError` that `int(round(v))` raises on the non-finite
`v` produced by overflowing or `inf`/`nan` inputs — yields the literal
`"N/A"`.  Totality of this definition is the model of "never raises". -/
def format_currency (value : PyStr) : PyStr :=
  match pyFloatParse value with
  | some v => RUPEE ++ pyFormatComma (pyRound v)
  | none => ("N/A").toList

/-- The logos fallback directory `assets/logos` joined with a file name,
modelling `str(LOGOS_DIR / name)`. -/
def logosPath (name : PyStr) : PyStr :=
  ("assets/logos/").toList ++ name

/-- Model of `pathlib.Path(p).name`: the final path component, ignoring
trailing slashes. -/
def baseName (p : PyStr) : PyStr :=
  (((p.reverse).dropWhile (fun c => c == '/')).takeWhile (fun c => !(c == '/'))).reverse

/-- Transcription of `normalize_logo_path` (src/generate_cards.py lines
160-171; src/scripts/generate_cards.py lines 125-134 has the same logic):
blank input yields `""`; otherwise try the stripped literal path, then the
logos directory joined with its base name, else `""`.  The filesystem is the
oracle `ex`; `Path` construction and `str` round-trip are modelled as the
identity on the stripped string. -/
def normalize_logo_path (ex : PyStr → Bool) (pathStr : PyStr) : PyStr :=
  let t := pyStrip pathStr
  if t = [] then []
  else if ex t then t
  else if ex (logosPath (baseName t)) then logosPath (baseName t)
  else []

/-- Modelled from the spec: the shrink-to-fit engine of §4.1-§4.3 (Text
Measurer, Greedy Line Wrapper, Shrink-to-Fit Resolver) has no implementation
under src/ (the shipped code draws at fixed sizes), so it is modelled from
the spec's words.  A `Measurer` is the external text-measuring backend:
given a font family, a pixel size and a string it returns the bounding box
`(width, height)`. -/
def Measurer : Type := PyStr → ℕ → PyStr → ℕ × ℕ

/-- Modelled from the spec: accumulator pass splitting a string on
whitespace; `acc` holds the characters of the current token in reverse. -/
def splitWSAcc : PyStr → PyStr → List PyStr
  | acc, [] => if acc = [] then [] else [acc.reverse]
  | acc, c :: rest =>
    if isPySpace c then
      if acc = [] then splitWSAcc [] rest else acc.reverse :: splitWSAcc [] rest
    else splitWSAcc (c :: acc) rest

/-- Modelled from the spec: split the input on whitespace into the list of
its (nonempty) tokens, as the Greedy Line Wrapper of §4.2 does. -/
def splitWS (l : PyStr) : List PyStr := splitWSAcc [] l

/-- Modelled from the spec: greedy accumulation of tokens into lines
(§4.2): extend the current line with the next token while the measured
width of `current ++ " " ++ token` stays within `maxW`, otherwise close the
line and start a new one with the token. -/
def wrapTokens (M : Measurer) (fam : PyStr) (size maxW : ℕ) :
    PyStr → List PyStr → List PyStr
  | cur, [] => [cur]
  | cur, t :: ts =>
    if (M fam size (cur ++ ' ' :: t)).1 ≤ maxW then
      wrapTokens M fam size maxW (cur ++ ' ' :: t) ts
    else cur :: wrapTokens M fam size maxW t ts

/-- Modelled from the spec: `wrap(text, font, max_width)` of §4.2.  Empty
input yields one empty line. -/
def wrap (M : Measurer) (fam : PyStr) (size maxW : ℕ) (text : PyStr) :
    List PyStr :=
  match splitWS text with
  | [] => [[]]
  | t :: ts => wrapTokens M fam size maxW t ts

/-- Modelled from the spec: the representative line height
`measure("Ay", font).height` of §4.3. -/
def lineHeight (M : Measurer) (fam : PyStr) (size : ℕ) : ℕ :=
  (M fam size ("Ay").toList).2

/-- Modelled from the spec: the descending size search `start_size,
start_size - 2, ...` down to `min_size` of §4.3 (fuel-driven; for
`1 ≤ lo` the fuel `start + 1` is always sufficient). -/
def searchSizesAux : ℕ → ℕ → ℕ → List ℕ
  | 0, _, _ => []
  | fuel + 1, start, lo =>
    if start < lo then [] else start :: searchSizesAux fuel (start - 2) lo

/-- Modelled from the spec: the list of candidate sizes tried by `fit`. -/
def searchSizes (start lo : ℕ) : List ℕ :=
  searchSizesAux (start + 1) start lo

/-- Modelled from the spec: the size-search loop of §4.3: return the first
`(size, lines)` whose total height `line_height * line_count` fits the box
height. -/
def fitLoop (M : Measurer) (fam : PyStr) (boxW boxH : ℕ) (text : PyStr) :
    List ℕ → Option (ℕ × List PyStr)
  | [] => none
  | s :: rest =>
    let ls := wrap M fam s boxW text
    if lineHeight M fam s * ls.length ≤ boxH then some (s, ls)
    else fitLoop M fam boxW boxH text rest

/-- Modelled from the spec: the ellipsis marker used by truncation. -/
def ELLIPSIS : PyStr := ("…").toList

/-- Modelled from the spec: shorten a line character-by-character from the
end, appending the ellipsis marker, until it measures within the box width
or the line is empty (§4.3 truncation fallback).  Works on the REVERSED
line so that dropping the line's last character is structural. -/
def shortenRev (M : Measurer) (fam : PyStr) (size maxW : ℕ) : PyStr → PyStr
  | [] => ELLIPSIS
  | c :: revRest =>
    if (M fam size ((c :: revRest).reverse ++ ELLIPSIS)).1 ≤ maxW then
      (c :: revRest).reverse ++ ELLIPSIS
    else shortenRev M fam size maxW revRest

/-- Modelled from the spec: the last-line truncation of §4.3. -/
def shorten (M : Measurer) (fam : PyStr) (size maxW : ℕ) (l : PyStr) : PyStr :=
  shortenRev M fam size maxW l.reverse

/-- Apply a function to the last element of a list, keeping its length. -/
def editLast (g : PyStr → PyStr) : List PyStr → List PyStr
  | [] => []
  | [l] => [g l]
  | l :: l2 :: ls => l :: editLast g (l2 :: ls)

/-- Modelled from the spec: `fit(text, box_width, box_height, font_family,
start_size, min_size)` of §4.3.  Search decreasing sizes for the first
whose wrapped block fits the box height; on exhaustion fall back to
`min_size`, keep `max(1, box_height // line_height)` lines and truncate the
last kept line with an ellipsis. -/
def fit (M : Measurer) (fam text : PyStr) (boxW boxH start lo : ℕ) :
    ℕ × List PyStr :=
  match fitLoop M fam boxW boxH text (searchSizes start lo) with
  | some r => r
  | none =>
    let ls := wrap M fam lo boxW text
    let lh := lineHeight M fam lo
    let maxLines := max 1 (boxH / lh)
    (lo, editLast (shorten M fam lo boxW) (ls.take maxLines))

/-- Font handles returned by the font resolver: a TrueType font loaded from
some bytes at a pixel size, or Pillow's built-in default bitmap font. -/
inductive FontH
  | truetype (bytes : PyStr) (size : ℕ)
  | builtin
deriving DecidableEq

/-- One primitive drawing operation on a card image.  `text` and `pasteImg`
are the two operations `generate_card_for_row` performs; `ellipse` is the
circle/ellipse primitive of the drawing backend, which the generator never
invokes (relevant to C6). -/
inductive DrawOp
  | text (content : PyStr) (x y : ℕ) (font : FontH) (color : List ℕ) (anchor : PyStr)
  | pasteImg (img : PyStr) (x y w h : ℕ)
  | ellipse (x0 y0 x1 y1 : ℕ) (color : List ℕ)
deriving DecidableEq

/-- A card image: the decoded template it was copied from plus the ordered
trace of drawing operations applied to it.  Saved PNG bytes are modelled by
this structure itself (the encoding is deterministic and injective on it). -/
structure Img where
  base : PyStr
  ops : List DrawOp
deriving DecidableEq

/-- The external world `generate_cards.py` interacts with: file contents by
path, the image decoder, TrueType font validity, the font-download network
response, system font lookup, the text measurer of the Pillow backend, and
ambient wall-clock / randomness sources (the last two exist in the world
but must never influence rendering — claim C8). -/
structure Env where
  files : PyStr → Option PyStr
  decodeImg : PyStr → Option PyStr
  validTTF : PyStr → Bool
  netFont : Option PyStr
  sysFont : PyStr → Option PyStr
  measure : FontH → PyStr → ℕ × ℕ
  clock : ℕ
  rand : ℕ

/-- `Path.exists()` against the modelled filesystem. -/
def envExists (env : Env) (p : PyStr) : Bool :=
  (env.files p).isSome

/-- `Image.open(p).convert("RGBA")`: read the file and decode it; `none`
models the raised exception (missing or corrupt file). -/
def envOpen (env : Env) (p : PyStr) : Option PyStr :=
  (env.files p).bind env.decodeImg

/-- The preferred font file name `FONT_FILENAME`. -/
def FONT_FILENAME : PyStr := ("Montserrat-SemiBold.ttf").toList

/-- `FONTS_DIR / name` as a string. -/
def fontsPath (name : PyStr) : PyStr := ("assets/fonts/").toList ++ name

/-- One step of the system-font fallback loop of `load_font`: bytes of a
system font that loads successfully, else `none`. -/
def trySys (env : Env) (name : PyStr) : Option PyStr :=
  match env.sysFont name with
  | some b => if env.validTTF b then some b else none
  | none => none

/-- The `for sysf in FONT_FALLBACKS_SYSTEM` loop of `load_font` (lines
109-116): arial, DejaVuSans, LiberationSans, then `load_default()`. -/
def sysChain (env : Env) (size : ℕ) : FontH :=
  match trySys env (("arial.ttf").toList) with
  | some b => .truetype b size
  | none =>
    match trySys env (("DejaVuSans.ttf").toList) with
    | some b => .truetype b size
    | none =>
      match trySys env (("LiberationSans-Regular.ttf").toList) with
      | some b => .truetype b size
      | none => .builtin

/-- Transcription of `load_font` (src/generate_cards.py lines 92-116): try
the local font file; if the preferred font is `FONT_FILENAME`, download it
when absent (`download_font_if_not_exists`, lines 72-89, modelled by the
`netFont` oracle) and retry; then the system fallbacks; finally the
built-in default.  The on-disk write of a downloaded font is not threaded:
every later load re-reads the same oracle, which is observationally the
same. -/
def load_font (env : Env) (preferred : Option PyStr) (size : ℕ) : FontH :=
  match preferred with
  | none => sysChain env size
  | some pref =>
    let step2 : FontH :=
      if pref = FONT_FILENAME then
        match env.files (fontsPath pref) with
        | some b => if env.validTTF b then .truetype b size else sysChain env size
        | none =>
          match env.netFont with
          | some nb => if env.validTTF nb then .truetype nb size else sysChain env size
          | none => sysChain env size
      else sysChain env size
    match env.files (fontsPath pref) with
    | some b => if env.validTTF b then .truetype b size else step2
    | none => step2

/-- The font every `_draw_text` call uses: `load_font(FONT_FILENAME, size)`. -/
def lf (env : Env) (size : ℕ) : FontH := load_font env (some FONT_FILENAME) size

/-- An input row: a mapping from (lowercase) field name to string value,
modelling the Python dict passed to `generate_card_for_row`. -/
def Row : Type := PyStr → Option PyStr

/-- Python `row.get(key, default)`. -/
def pyGet (row : Row) (k d : PyStr) : PyStr := (row k).getD d

/-- Python `a or b` where `a` is `row.get(key)` (an optional string): an
absent key (`None`) and the empty string are both falsy. -/
def pyOrS (a : Option PyStr) (b : PyStr) : PyStr :=
  match a with
  | some s => if s = [] then b else s
  | none => b

/-- The row identifier `row.get("id") or row.get("customer_id") or
"unknown"` (src/generate_cards.py line 312). -/
def cidOf (row : Row) : PyStr :=
  pyOrS (row (("id").toList)) (pyOrS (row (("customer_id").toList)) (("unknown").toList))

/-- Loan card `Emi-ID` line: `f"Emi-ID - {row.get('emi_id', cid)}"` (line 332). -/
def emiIdDisplay (row : Row) : PyStr :=
  ("Emi-ID - ").toList ++ pyGet row (("emi_id").toList) (cidOf row)

/-- Loan card name value: `row.get("name", "N/A")` (line 336). -/
def nameDisplay (row : Row) : PyStr :=
  pyGet row (("name").toList) (("N/A").toList)

/-- Loan amount value: `format_currency(row.get("loan_amount", ""))` (line 340). -/
def loanAmountDisplay (row : Row) : PyStr :=
  format_currency (pyGet row (("loan_amount").toList) [])

/-- EMI amount value: `format_currency(row.get("emi_amount", ""))` (line 357). -/
def emiAmountDisplay (row : Row) : PyStr :=
  format_currency (pyGet row (("emi_amount").toList) [])

/-- EMI due line: `f"Due on {row.get('due_date', 'N/A')}"` (line 364). -/
def dueDisplay (row : Row) : PyStr :=
  ("Due on ").toList ++ pyGet row (("due_date").toList) (("N/A").toList)

/-- EMI contact line (lines 371-372). -/
def phoneSupportDisplay (row : Row) : PyStr :=
  ("Contact for support: ").toList ++
    pyGet row (("phone_number").toList) (("+91 XXXX XXXXX").toList)

/-- Bank name value: `row.get("bank_name", "N/A")` (line 417). -/
def bankNameDisplay (row : Row) : PyStr :=
  pyGet row (("bank_name").toList) (("N/A").toList)

/-- Branch value: `row.get("branch_name", "N/A")` (line 421). -/
def branchDisplay (row : Row) : PyStr :=
  pyGet row (("branch_name").toList) (("N/A").toList)

/-- IFSC value: `row.get('ifsc', 'N/A')` (line 435). -/
def ifscDisplay (row : Row) : PyStr :=
  pyGet row (("ifsc").toList) (("N/A").toList)

/-- Account holder value: `row.get('account_holder', row.get('name', 'N/A'))`
(line 438). -/
def acctHolderDisplay (row : Row) : PyStr :=
  pyGet row (("account_holder").toList) (pyGet row (("name").toList) (("N/A").toList))

/-- Account number value: `row.get('account_number', 'XXXXXXXXXXXX')` (line 441). -/
def acctNoDisplay (row : Row) : PyStr :=
  pyGet row (("account_number").toList) (("XXXXXXXXXXXX").toList)

/-- Bank card reminder line: `f"For queries call: {row.get('phone_number',
'+91 XXXX XXXXX')}"` (line 445). -/
def queriesDisplay (row : Row) : PyStr :=
  ("For queries call: ").toList ++
    pyGet row (("phone_number").toList) (("+91 XXXX XXXXX").toList)

/-- Colour constants of the CONFIG section. -/
def TEXT_COLOR : List ℕ := [255, 255, 255, 255]

/-- Dark text colour for light backgrounds. -/
def DARK_TEXT_COLOR : List ℕ := [30, 30, 30, 255]

/-- Gold accent colour. -/
def ACCENT_COLOR : List ℕ := [255, 204, 0]

/-- Saarathi purple. -/
def PRIMARY_COLOR : List ℕ := [82, 27, 123]

/-- Anchor string for middle-baseline text. -/
def ANCHOR_MS : PyStr := ("ms").toList

/-- Anchor string for left-baseline text. -/
def ANCHOR_LS : PyStr := ("ls").toList

/-- Template file paths (TEMPLATE_FILENAMES). -/
def LOAN_TPL : PyStr := ("assets/templates/loan_card_template.png").toList

/-- EMI template path. -/
def EMI_TPL : PyStr := ("assets/templates/emi_card_template.png").toList

/-- Bank template path. -/
def BANK_TPL : PyStr := ("assets/templates/bank_card_template.png").toList

/-- Output path `GENERATED_DIR / f"{cid}{suffix}"`. -/
def genPath (cid suffix : PyStr) : PyStr :=
  ("assets/generated/").toList ++ cid ++ suffix

/-- Drawing trace of the loan card section (lines 324-344).  The shared
coordinates evaluate to `center_x = 640`, `card_y = 70`,
`text_start_x = 140`; the three dynamic texts land at `(640, 180)`,
`(140, 305)` and `(140, 495)`. -/
def loanOps (env : Env) (row : Row) : List DrawOp :=
  [ .text (emiIdDisplay row) 640 180 (lf env 36) TEXT_COLOR ANCHOR_MS,
    .text (nameDisplay row) 140 305 (lf env 60) TEXT_COLOR ANCHOR_LS,
    .text (loanAmountDisplay row) 140 495 (lf env 60) TEXT_COLOR ANCHOR_LS ]

/-- Drawing trace of the EMI card section (lines 346-379).
`content_top_y = 190`, `content_height = 400`, so the amount sits at
`y = 190 + 400 * 0.35 = 330` (the float 0.35 is modelled exactly, as the
rational 7/20: the product is the whole number 140), the due line 120
below, and the contact line at `(640, 620)`. -/
def emiOps (env : Env) (row : Row) : List DrawOp :=
  let emiAmountY : ℕ := 190 + 400 * 7 / 20
  [ .text (emiAmountDisplay row) 640 emiAmountY (lf env 100) TEXT_COLOR ANCHOR_MS,
    .text (dueDisplay row) 640 (emiAmountY + 120) (lf env 40) ACCENT_COLOR ANCHOR_MS,
    .text (phoneSupportDisplay row) 640 620 (lf env 30) TEXT_COLOR ANCHOR_MS ]

/-- Drawing trace of the logo placement block of the bank card (lines
390-399): an empty resolved path draws nothing; an unreadable resolved path
raises inside `Image.open`, is caught, and the literal text `"LOGO"` is
drawn at the centre of the 120x120 logo box at `(150, 120)`; a readable one
is resized to 120x120 and pasted. -/
def bankLogoOpsAux (env : Env) (logoPath : PyStr) : List DrawOp :=
  if logoPath = [] then []
  else
    match envOpen env logoPath with
    | some img => [DrawOp.pasteImg img 150 120 120 120]
    | none => [DrawOp.text (("LOGO").toList) 210 180 (lf env 28) DARK_TEXT_COLOR ANCHOR_MS]

/-- The logo block applied to the row's (re-normalised) `bank_logo_path`. -/
def bankLogoOps (env : Env) (row : Row) : List DrawOp :=
  bankLogoOpsAux env
    (normalize_logo_path (envExists env) (pyGet row (("bank_logo_path").toList) []))

/-- Drawing trace of the bank card section (lines 381-448).  The dynamic x
offsets depend on the measured label widths exactly as in the source:
`dynamic_text_x_offset = logo_x + logo_size + 40 + max(label widths) + 15`
and `dynamic_acc_text_x_offset = inner_content_x + max(label widths) + 15`. -/
def bankOps (env : Env) (row : Row) : List DrawOp :=
  let bnw := (env.measure (lf env 48) (("Bank Name:").toList)).1
  let brw := (env.measure (lf env 32) (("Branch Location:").toList)).1
  let dynX : ℕ := 150 + 120 + 40 + max bnw brw + 15
  let w1 := (env.measure (lf env 32) (("IFSC:").toList)).1
  let w2 := (env.measure (lf env 32) (("Account Holder:").toList)).1
  let w3 := (env.measure (lf env 32) (("Account No:").toList)).1
  let dynAccX : ℕ := 150 + max w1 (max w2 w3) + 15
  bankLogoOps env row ++
  [ .text (bankNameDisplay row) dynX 140 (lf env 48) PRIMARY_COLOR ANCHOR_LS,
    .text (branchDisplay row) dynX 200 (lf env 32) DARK_TEXT_COLOR ANCHOR_LS,
    .text (ifscDisplay row) dynAccX 320 (lf env 32) DARK_TEXT_COLOR ANCHOR_LS,
    .text (acctHolderDisplay row) dynAccX 390 (lf env 32) DARK_TEXT_COLOR ANCHOR_LS,
    .text (acctNoDisplay row) dynAccX 460 (lf env 32) DARK_TEXT_COLOR ANCHOR_LS,
    .text (queriesDisplay row) 640 620 (lf env 30) TEXT_COLOR ANCHOR_MS ]

/-- Result of one `generate_card_for_row` call: the files saved before the
call returned or raised, and whether it completed without an exception. -/
structure GenResult where
  saved : List (PyStr × Img)
  ok : Bool
deriving DecidableEq

/-- Transcription of `generate_card_for_row` (src/generate_cards.py lines
311-451).  There is no try/except inside the function apart from the logo
block, so a failure to open a template raises immediately: the files saved
so far remain and NO later card type is attempted.  Failure sources are the
three `Image.open` calls (`envOpen`); `save` and the draw primitives are
modelled as non-failing. -/
def generate_card_for_row (env : Env) (row : Row) : GenResult :=
  let cid := cidOf row
  match envOpen env LOAN_TPL with
  | none => ⟨[], false⟩
  | some loanBase =>
    let s1 : List (PyStr × Img) :=
      [(genPath cid (("_loan.png").toList), ⟨loanBase, loanOps env row⟩)]
    match envOpen env EMI_TPL with
    | none => ⟨s1, false⟩
    | some emiBase =>
      let s2 := s1 ++ [(genPath cid (("_emi.png").toList), ⟨emiBase, emiOps env row⟩)]
      match envOpen env BANK_TPL with
      | none => ⟨s2, false⟩
      | some bankBase =>
        ⟨s2 ++ [(genPath cid (("_bank.png").toList), ⟨bankBase, bankOps env row⟩)], true⟩

/-- The per-row normalisation `main` performs before calling the generator
(lines 487-488): when `bank_logo_path` is present, replace it with
`normalize_logo_path` of its value. -/
def preNormRow (env : Env) (r : Row) : Row := fun k =>
  if k = ("bank_logo_path").toList then
    (r k).map (fun v => normalize_logo_path (envExists env) v)
  else r k

/-- The row loop of `main` (lines 483-494): each row is wrapped in its own
try/except, so a failed row is counted and the remaining rows still run.
Returns (successes, failures, all files written in order). -/
def processRows (env : Env) : List Row → ℕ × ℕ × List (PyStr × Img)
  | [] => (0, 0, [])
  | r :: rest =>
    let res := generate_card_for_row env (preNormRow env r)
    let acc := processRows env rest
    (acc.1 + (if res.ok then 1 else 0),
     acc.2.1 + (if res.ok then 0 else 1),
     res.saved ++ acc.2.2)

/-- The three shapes of the CSV input source `main` distinguishes: file
missing, `pd.read_csv` raising, or a parsed list of rows. -/
inductive CsvSource
  | missing
  | unreadable
  | parsed (rows : List Row)

/-- Outcome of a `main` run as observed by the caller: the process exit
status, whether an error message was printed, the run summary
(total, successes, failures) when the loop ran, and the files written. -/
structure MainResult where
  exitCode : ℕ
  errorReported : Bool
  summary : Option (ℕ × ℕ × ℕ)
  outputs : List (PyStr × Img)

/-- Transcription of `main` (src/generate_cards.py lines 455-497) plus the
`if __name__ == "__main__": main()` entry (lines 500-501; the scripts/
variant, lines 281-328 there, ends the same way).  In each of the three
top-level failure shapes the function prints a message and plainly
`return`s; no `sys.exit` is ever called, so the process exit status is 0 on
every path. -/
def pyMain (env : Env) (src : CsvSource) : MainResult :=
  match src with
  | .missing => ⟨0, true, none, []⟩
  | .unreadable => ⟨0, true, none, []⟩
  | .parsed [] => ⟨0, true, none, []⟩
  | .parsed (r :: rs) =>
    let res := processRows env (r :: rs)
    ⟨0, false, some ((r :: rs).length, res.1, res.2.1), res.2.2⟩

/-- Content of the file at path `p` after a sequence of writes: the last
write wins (later rows silently overwrite earlier ones). -/
def lastWrite (outs : List (PyStr × Img)) (p : PyStr) : Option Img :=
  ((outs.filter (fun e => decide (e.1 = p))).getLast?).map Prod.snd

/-- Whether a drawing operation is the circle/ellipse primitive. -/
def isCircleOp : DrawOp → Bool
  | .ellipse _ _ _ _ _ => true
  | _ => false

/-- A row with no keys at all. -/
def rowEmpty : Row := fun _ => none

/-- A minimal healthy world: the three template files exist and decode (to
their own path string), nothing else exists, no fonts resolve (so every
text op uses the built-in font), and the measurer returns `(0, 0)`. -/
def envTriv : Env :=
  ⟨fun p => if p = LOAN_TPL ∨ p = EMI_TPL ∨ p = BANK_TPL then some p else none,
   some, fun _ => false, none, fun _ => none, fun _ _ => (0, 0), 0, 0⟩

/-- The same world as `envTriv` except the wall clock reads 1 and the
ambient randomness differs: only the components C8 says must not matter. -/
def envTriv2 : Env :=
  ⟨fun p => if p = LOAN_TPL ∨ p = EMI_TPL ∨ p = BANK_TPL then some p else none,
   some, fun _ => false, none, fun _ => none, fun _ _ => (0, 0), 1, 7⟩

/-- A world in which the loan and bank templates decode but the EMI
template file is corrupt (`Image.open` raises on it). -/
def envC2 : Env :=
  ⟨fun p => if p = LOAN_TPL ∨ p = EMI_TPL ∨ p = BANK_TPL then some p else none,
   fun b => if b = EMI_TPL then none else some b,
   fun _ => false, none, fun _ => none, fun _ _ => (0, 0), 0, 0⟩

/-- A row whose `bank_logo_path` points at a file that does not exist. -/
def rowC6 : Row := fun k =>
  if k = ("bank_logo_path").toList then some (("missing.png").toList) else none

/-- A row in which every key is present with the empty string as value
(the shape `pd.read_csv(...).fillna("")` produces for blank cells). -/
def rowBlank : Row := fun _ => some []

/-- A row with a name but with `id` and `customer_id` both absent. -/
def rowNamed : Row := fun k =>
  if k = ("name").toList then some (("Asha Rao").toList) else none

/-- A filesystem on which exactly `logo.png` exists. -/
def exW : PyStr → Bool := fun q => q == ("logo.png").toList

/-- A filesystem on which exactly the file `assets/logos/b ` — a logo file
whose base name ends in a space — exists. -/
def exTrailingSpace : PyStr → Bool := fun q => q == ("assets/logos/b ").toList

/-- A concrete text measurer for witnesses: every character is `size`
pixels wide and a line is `size` pixels tall. -/
def measurerW : Measurer := fun _ size t => (t.length * size, size)

/-- Dropping a prefix never lengthens a list. -/
theorem length_dropWhile_le (p : Char → Bool) (l : List Char) :
    (l.dropWhile p).length ≤ l.length := by
  induction l with
  | nil => simp
  | cons a t ih =>
    by_cases h : p a
    · simp [List.dropWhile, h]; omega
    · simp [List.dropWhile, h]

/-- `dropWhile` is idempotent. -/
theorem dropWhile_idem (p : Char → Bool) (l : List Char) :
    (l.dropWhile p).dropWhile p = l.dropWhile p := by
  induction l with
  | nil => rfl
  | cons a t ih =>
    by_cases h : p a
    · simp [List.dropWhile, h, ih]
    · simp [List.dropWhile, h]

/-- The head of `dropWhile p l` does not satisfy `p`. -/
theorem head_dropWhile_not (p : Char → Bool) (l : List Char) :
    ∀ a, (l.dropWhile p).head? = some a → p a = false := by
  induction l with
  | nil => intro a h; simp at h
  | cons b t ih =>
    intro a h
    by_cases hb : p b
    · exact ih a (by simpa [List.dropWhile, hb] using h)
    · simp [List.dropWhile, hb] at h
      subst h
      simpa using hb

/-- `dropWhile` keeps the last element of the list. -/
theorem getLast?_dropWhile (p : Char → Bool) (l : List Char)
    (h : l.dropWhile p ≠ []) : (l.dropWhile p).getLast? = l.getLast? := by
  induction l with
  | nil => simp at h
  | cons b t ih =>
    by_cases hb : p b
    · have ht : t.dropWhile p ≠ [] := by simpa [List.dropWhile, hb] using h
      have htne : t ≠ [] := by
        intro he; subst he; simp at ht
      obtain ⟨c, t2, rfl⟩ := List.exists_cons_of_ne_nil htne
      simpa [List.dropWhile, hb, List.getLast?_cons_cons] using ih ht
    · simp [List.dropWhile, hb]

/-- A list whose head fails `p` is untouched by `dropWhile p`. -/
theorem dropWhile_eq_self_of_head (p : Char → Bool) (l : List Char)
    (h : ∀ a, l.head? = some a → p a = false) : l.dropWhile p = l := by
  cases l with
  | nil => rfl
  | cons a t => simp [List.dropWhile, h a rfl]

/-- The first character of a stripped string is not whitespace. -/
theorem pyStrip_head_not (l : PyStr) :
    ∀ a, (pyStrip l).head? = some a → isPySpace a = false := by
  intro a h
  unfold pyStrip at h
  rw [List.head?_reverse] at h
  by_cases hy : ((l.dropWhile isPySpace).reverse).dropWhile isPySpace = []
  · rw [hy] at h; simp at h
  · rw [getLast?_dropWhile _ _ hy, List.getLast?_reverse] at h
    exact head_dropWhile_not isPySpace l a h

/-- The last character of a stripped string is not whitespace. -/
theorem pyStrip_getLast_not (l : PyStr) :
    ∀ a, (pyStrip l).getLast? = some a → isPySpace a = false := by
  intro a h
  unfold pyStrip at h
  rw [List.getLast?_reverse] at h
  exact head_dropWhile_not isPySpace _ a h

/-- Python `strip` is idempotent. -/
theorem pyStrip_idem (l : PyStr) : pyStrip (pyStrip l) = pyStrip l := by
  have h1 : (pyStrip l).dropWhile isPySpace = pyStrip l :=
    dropWhile_eq_self_of_head _ _ (pyStrip_head_not l)
  have h2 : ((pyStrip l).reverse).dropWhile isPySpace = (pyStrip l).reverse := by
    refine dropWhile_eq_self_of_head _ _ ?_
    intro a ha
    rw [List.head?_reverse] at ha
    exact pyStrip_getLast_not l a ha
  show (((pyStrip l).dropWhile isPySpace).reverse.dropWhile isPySpace).reverse = pyStrip l
  rw [h1, h2, List.reverse_reverse]

/-- C7: logo path resolution order.  For every filesystem `ex` and every
path reference string `p`: a blank reference resolves to the empty string;
otherwise the literal (stripped) path is tried first and returned when it
exists; otherwise the fallback logos directory joined with the reference's
base name is returned when that exists; and when both lookups miss the
result is the empty string. -/
theorem c7_normalize_resolution_order (ex : PyStr → Bool) (p : PyStr) :
    (pyStrip p = [] → normalize_logo_path ex p = []) ∧
    (pyStrip p ≠ [] → ex (pyStrip p) = true →
      normalize_logo_path ex p = pyStrip p) ∧
    (pyStrip p ≠ [] → ex (pyStrip p) = false →
      ex (logosPath (baseName (pyStrip p))) = true →
      normalize_logo_path ex p = logosPath (baseName (pyStrip p))) ∧
    (pyStrip p ≠ [] → ex (pyStrip p) = false →
      ex (logosPath (baseName (pyStrip p))) = false →
      normalize_logo_path ex p = []) := by
  refine ⟨?_, ?_, ?_, ?_⟩
  · intro h; simp [normalize_logo_path, h]
  · intro h1 h2; simp [normalize_logo_path, h1, h2]
  · intro h1 h2 h3; simp [normalize_logo_path, h1, h2, h3]
  · intro h1 h2 h3; simp [normalize_logo_path, h1, h2, h3]

/-- C7 witness: on a filesystem containing exactly `logo.png`, the
reference `logo.png` resolves to itself via the first (literal-path)
lookup. -/
theorem c7_witness :
    normalize_logo_path exW (("logo.png").toList) = pyStrip (("logo.png").toList) :=
  (c7_normalize_resolution_order exW (("logo.png").toList)).2.1 (by decide) (by decide)

/-- C10 counterexample: `normalize_logo_path` is NOT idempotent for every
input.  On a filesystem containing exactly the file `assets/logos/b `
(base name with a trailing space), the reference `a/b /` resolves — via the
fallback directory — to `assets/logos/b `, but normalising that result
again strips the trailing space, misses both lookups, and returns the empty
string. -/
theorem c10_counterexample :
    normalize_logo_path exTrailingSpace (("a/b /").toList) =
      ("assets/logos/b ").toList ∧
    normalize_logo_path exTrailingSpace
      (normalize_logo_path exTrailingSpace (("a/b /").toList)) = [] ∧
    normalize_logo_path exTrailingSpace
      (normalize_logo_path exTrailingSpace (("a/b /").toList)) ≠
      normalize_logo_path exTrailingSpace (("a/b /").toList) := by
  refine ⟨by decide, by decide, by decide⟩

/-- C10 (amended): `normalize_logo_path` is idempotent under a fixed
filesystem for every input whose resolved result carries no surrounding
whitespace (in particular whenever the resolved logo file's base name does
not end in whitespace — the situation of every realistic run, and the
reason the double normalisation in `main` + `generate_card_for_row` is
harmless there). -/
theorem c10_normalize_idempotent (ex : PyStr → Bool) (p : PyStr)
    (h : pyStrip (normalize_logo_path ex p) = normalize_logo_path ex p) :
    normalize_logo_path ex (normalize_logo_path ex p) =
      normalize_logo_path ex p := by
  unfold normalize_logo_path
  by_cases h1 : pyStrip p = []
  · simp [normalize_logo_path, h1]
    intro hc
    exact absurd rfl hc
  · by_cases h2 : ex (pyStrip p) = true
    · simp only [normalize_logo_path, h1, h2, if_neg h1, if_true]
      simp [pyStrip_idem, h1, h2]
    · rw [Bool.not_eq_true] at h2
      by_cases h3 : ex (logosPath (baseName (pyStrip p))) = true
      · have hres : normalize_logo_path ex p = logosPath (baseName (pyStrip p)) :=
          (c7_normalize_resolution_order ex p).2.2.1 h1 h2 h3
        have hne : logosPath (baseName (pyStrip p)) ≠ [] := by
          simp [logosPath]
        rw [hres] at h
        simp [normalize_logo_path, h1, h2, h3, h, hne, hres]
      · rw [Bool.not_eq_true] at h3
        simp [normalize_logo_path, h1, h2, h3]
        intro hc
        exact absurd rfl hc

/-- C10 witness: idempotence at a well-behaved reference on the `exW`
filesystem. -/
theorem c10_witness :
    normalize_logo_path exW (normalize_logo_path exW (("logo.png").toList)) =
      normalize_logo_path exW (("logo.png").toList) :=
  c10_normalize_idempotent exW (("logo.png").toList) (by decide)

/-- C4 counterexample: with the customer CSV missing, `main` returns and the
process exits with status 0 — not with the nonzero status the claim
requires. -/
theorem c4_counterexample :
    (pyMain envTriv CsvSource.missing).exitCode = 0 := rfl

/-- C4 (amended): when the CSV is missing, unreadable or empty, the run
stops before processing any row (no summary, no outputs) and an error
message is printed — but `main` plainly returns, so the process exit status
is 0, not nonzero. -/
theorem c4_top_level_failure (env : Env) (src : CsvSource)
    (h : src = CsvSource.missing ∨ src = CsvSource.unreadable ∨
      src = CsvSource.parsed []) :
    (pyMain env src).exitCode = 0 ∧ (pyMain env src).errorReported = true ∧
    (pyMain env src).summary = none ∧ (pyMain env src).outputs = [] := by
  rcases h with rfl | rfl | rfl <;> exact ⟨rfl, rfl, rfl, rfl⟩

/-- C4 witness: the amended statement at the missing-CSV input. -/
theorem c4_witness :
    (pyMain envTriv CsvSource.missing).exitCode = 0 ∧
    (pyMain envTriv CsvSource.missing).errorReported = true ∧
    (pyMain envTriv CsvSource.missing).summary = none ∧
    (pyMain envTriv CsvSource.missing).outputs = [] :=
  c4_top_level_failure envTriv CsvSource.missing (Or.inl rfl)

/-- C3 counterexample: an absent key is NOT treated as the empty string.
On the row with no keys the name field renders the literal `"N/A"`,
the account-number field the literal `"XXXXXXXXXXXX"`, and the phone field
the literal `"+91 XXXX XXXXX"` — all different from the display strings
produced when the keys are present with empty values. -/
theorem c3_counterexample :
    nameDisplay rowEmpty = ("N/A").toList ∧
    nameDisplay rowBlank = [] ∧
    nameDisplay rowEmpty ≠ nameDisplay rowBlank ∧
    acctNoDisplay rowEmpty = ("XXXXXXXXXXXX").toList ∧
    acctNoDisplay rowEmpty ≠ acctNoDisplay rowBlank ∧
    phoneSupportDisplay rowEmpty = ("Contact for support: +91 XXXX XXXXX").toList ∧
    phoneSupportDisplay rowEmpty ≠ phoneSupportDisplay rowBlank := by
  refine ⟨by decide, by decide, by decide, by decide, by decide, by decide, by decide⟩

/-- C3 (amended): an absent key never causes a missing-key fault (every
field display is total), but each field substitutes its own literal
default rather than the empty string: `name`, `bank_name`, `branch_name`,
`ifsc` and `due_date` default to `"N/A"`; `account_number` to
`"XXXXXXXXXXXX"`; `phone_number` to `"+91 XXXX XXXXX"`; `account_holder`
falls back to the name field; `emi_id` to the row identifier; only
`loan_amount` and `emi_amount` default to the empty string (which the
currency formatter then renders as `"N/A"`). -/
theorem c3_missing_key_defaults (row : Row) :
    (row (("name").toList) = none → nameDisplay row = ("N/A").toList) ∧
    (row (("bank_name").toList) = none → bankNameDisplay row = ("N/A").toList) ∧
    (row (("branch_name").toList) = none → branchDisplay row = ("N/A").toList) ∧
    (row (("ifsc").toList) = none → ifscDisplay row = ("N/A").toList) ∧
    (row (("due_date").toList) = none → dueDisplay row = ("Due on N/A").toList) ∧
    (row (("account_number").toList) = none →
      acctNoDisplay row = ("XXXXXXXXXXXX").toList) ∧
    (row (("phone_number").toList) = none →
      phoneSupportDisplay row = ("Contact for support: +91 XXXX XXXXX").toList ∧
      queriesDisplay row = ("For queries call: +91 XXXX XXXXX").toList) ∧
    (row (("account_holder").toList) = none →
      acctHolderDisplay row = pyGet row (("name").toList) (("N/A").toList)) ∧
    (row (("emi_id").toList) = none →
      emiIdDisplay row = ("Emi-ID - ").toList ++ cidOf row) ∧
    (row (("loan_amount").toList) = none →
      loanAmountDisplay row = ("N/A").toList) ∧
    (row (("emi_amount").toList) = none →
      emiAmountDisplay row = ("N/A").toList) := by
  refine ⟨?_, ?_, ?_, ?_, ?_, ?_, ?_, ?_, ?_, ?_, ?_⟩ <;> intro h
  · simp only [nameDisplay, pyGet]; rw [h]; rfl
  · simp only [bankNameDisplay, pyGet]; rw [h]; rfl
  · simp only [branchDisplay, pyGet]; rw [h]; rfl
  · simp only [ifscDisplay, pyGet]; rw [h]; rfl
  · simp only [dueDisplay, pyGet]; rw [h]; rfl
  · simp only [acctNoDisplay, pyGet]; rw [h]; rfl
  · constructor
    · simp only [phoneSupportDisplay, pyGet]; rw [h]; rfl
    · simp only [queriesDisplay, pyGet]; rw [h]; rfl
  · simp only [acctHolderDisplay, pyGet]; rw [h]; rfl
  · simp only [emiIdDisplay, pyGet]; rw [h]; rfl
  · simp only [loanAmountDisplay, pyGet]; rw [h]; decide
  · simp only [emiAmountDisplay, pyGet]; rw [h]; decide

/-- C3 witness: the amended statement at the empty row. -/
theorem c3_witness :
    nameDisplay rowEmpty = ("N/A").toList ∧
    acctNoDisplay rowEmpty = ("XXXXXXXXXXXX").toList :=
  ⟨(c3_missing_key_defaults rowEmpty).1 rfl,
   (c3_missing_key_defaults rowEmpty).2.2.2.2.2.1 rfl⟩

/-- C2 counterexample: in a world where the EMI template is corrupt (so
rendering the EMI card raises) but the loan and bank templates are fine,
`generate_card_for_row` saves only the loan card: the bank card — a
remaining card type of the same row — is never attempted, although its own
template would open successfully.  This refutes card-type-level isolation. -/
theorem c2_counterexample :
    (generate_card_for_row envC2 rowEmpty).ok = false ∧
    (generate_card_for_row envC2 rowEmpty).saved.map Prod.fst =
      [("assets/generated/unknown_loan.png").toList] ∧
    (envOpen envC2 BANK_TPL).isSome = true := by
  refine ⟨by decide, by decide, by decide⟩

/-- C2 (amended): an unexpected exception while rendering one card type is
NOT caught at the card-type level: it propagates out of
`generate_card_for_row`, so the remaining card types of the same row are
not attempted and their files are not produced.  The failure is caught one
level up, in `main`'s per-row try/except: the row is counted as one
failure, its earlier card files remain on disk, and the remaining rows are
still processed. -/
theorem c2_row_level_isolation (env : Env) (row : Row) (rest : List Row)
    (hloan : (envOpen env LOAN_TPL).isSome = true)
    (hemi : envOpen env EMI_TPL = none) :
    (generate_card_for_row env row).ok = false ∧
    (generate_card_for_row env row).saved.map Prod.fst =
      [genPath (cidOf row) (("_loan.png").toList)] ∧
    (processRows env (row :: rest)).1 = (processRows env rest).1 ∧
    (processRows env (row :: rest)).2.1 = (processRows env rest).2.1 + 1 ∧
    (processRows env (row :: rest)).2.2 =
      (generate_card_for_row env (preNormRow env row)).saved ++
        (processRows env rest).2.2 := by
  obtain ⟨lb, hlb⟩ := Option.isSome_iff_exists.mp hloan
  have hgen : ∀ r : Row, generate_card_for_row env r =
      ⟨[(genPath (cidOf r) (("_loan.png").toList), ⟨lb, loanOps env r⟩)], false⟩ := by
    intro r
    simp [generate_card_for_row, hlb, hemi]
  refine ⟨?_, ?_, ?_, ?_, ?_⟩
  · rw [hgen row]
  · rw [hgen row]; simp
  · simp [processRows, hgen]
  · simp [processRows, hgen]
  · simp [processRows]

/-- C2 witness: the amended statement in the corrupt-EMI-template world. -/
theorem c2_witness :
    (generate_card_for_row envC2 rowEmpty).ok = false ∧
    (processRows envC2 [rowEmpty]).2.1 = 1 := by
  have h := c2_row_level_isolation envC2 rowEmpty [] (by decide) (by decide)
  exact ⟨h.1, by rw [h.2.2.2.1]; decide⟩

/-- C6 counterexample: with `bank_logo_path` pointing at a nonexistent
file, the resolver returns the empty string and the bank card render adds
NO drawing operation for the logo box — in particular no circular
placeholder is drawn anywhere on the bank card (the run continues and the
row still counts as a success, as the claim also says). -/
theorem c6_counterexample :
    normalize_logo_path (envExists envTriv) (("missing.png").toList) = [] ∧
    bankLogoOps envTriv rowC6 = [] ∧
    ((bankOps envTriv rowC6).all fun op => !(isCircleOp op)) = true ∧
    (generate_card_for_row envTriv rowC6).ok = true := by
  refine ⟨by decide, by decide, by decide, by decide⟩

/-- C6 (amended): the compositor never draws a circular placeholder.  When
the logo reference is empty or fails to resolve, nothing at all is drawn
into the logo box (the template's grey rounded-rectangle placeholder shows
through); when the reference resolves but the image fails to load, the
literal text `"LOGO"` is drawn at the centre of the logo box.  In both
situations the row still renders to completion and counts as a success
whenever the three templates open. -/
theorem c6_logo_fallback (env : Env) (row : Row) :
    (∀ op ∈ bankOps env row, isCircleOp op = false) ∧
    (normalize_logo_path (envExists env)
        (pyGet row (("bank_logo_path").toList) []) = [] →
      bankLogoOps env row = []) ∧
    (∀ p, normalize_logo_path (envExists env)
        (pyGet row (("bank_logo_path").toList) []) = p → p ≠ [] →
      envOpen env p = none →
      bankLogoOps env row =
        [DrawOp.text (("LOGO").toList) 210 180 (lf env 28) DARK_TEXT_COLOR ANCHOR_MS]) ∧
    ((envOpen env LOAN_TPL).isSome = true → (envOpen env EMI_TPL).isSome = true →
      (envOpen env BANK_TPL).isSome = true →
      (generate_card_for_row env row).ok = true) := by
  refine ⟨?_, ?_, ?_, ?_⟩
  · intro op hop
    simp only [bankOps, List.mem_append, List.mem_cons, List.not_mem_nil,
      or_false] at hop
    rcases hop with h | h
    · unfold bankLogoOps bankLogoOpsAux at h
      split at h
      · simp at h
      · split at h <;> simp at h <;> subst h <;> rfl
    · rcases h with rfl | rfl | rfl | rfl | rfl | rfl <;> rfl
  · intro h
    unfold bankLogoOps
    rw [h]
    rfl
  · intro p hp hne hopen
    unfold bankLogoOps
    rw [hp]
    unfold bankLogoOpsAux
    rw [if_neg hne, hopen]
  · intro ht1 ht2 ht3
    obtain ⟨b1, hb1⟩ := Option.isSome_iff_exists.mp ht1
    obtain ⟨b2, hb2⟩ := Option.isSome_iff_exists.mp ht2
    obtain ⟨b3, hb3⟩ := Option.isSome_iff_exists.mp ht3
    simp [generate_card_for_row, hb1, hb2, hb3]

/-- C6 witness: the amended statement at the nonexistent-logo row in the
healthy-template world. -/
theorem c6_witness :
    bankLogoOps envTriv rowC6 = [] ∧
    (generate_card_for_row envTriv rowC6).ok = true :=
  ⟨(c6_logo_fallback envTriv rowC6).2.1 (by decide),
   (c6_logo_fallback envTriv rowC6).2.2.2 (by decide) (by decide) (by decide)⟩

/-- C8: per-row render determinism.  `generate_card_for_row` is a pure
function of the row and of the template / font / logo / measurement
resolver state: two worlds that agree on the filesystem, image decoder,
font validity, font-download response, system fonts and text measurer — but
may disagree arbitrarily on the wall clock and on ambient randomness —
produce identical saved images.  In particular rendering the same row twice
under the same resolver state is byte-identical, and no step reads a clock
or a randomness source. -/
theorem c8_determinism (row : Row) (e1 e2 : Env)
    (hfiles : e1.files = e2.files) (hdec : e1.decodeImg = e2.decodeImg)
    (httf : e1.validTTF = e2.validTTF) (hnet : e1.netFont = e2.netFont)
    (hsys : e1.sysFont = e2.sysFont) (hmes : e1.measure = e2.measure) :
    generate_card_for_row e1 row = generate_card_for_row e2 row := by
  obtain ⟨f1, d1, v1, n1, s1, m1, c1, r1⟩ := e1
  obtain ⟨f2, d2, v2, n2, s2, m2, c2, r2⟩ := e2
  simp only at hfiles hdec httf hnet hsys hmes
  subst hfiles
  subst hdec
  subst httf
  subst hnet
  subst hsys
  subst hmes
  rfl

/-- C8 witness: `envTriv` and `envTriv2` differ only in clock and
randomness; rendering any row in the two worlds is byte-identical. -/
theorem c8_witness :
    generate_card_for_row envTriv rowEmpty = generate_card_for_row envTriv2 rowEmpty :=
  c8_determinism rowEmpty envTriv envTriv2 rfl rfl rfl rfl rfl rfl

/-- Python-truthiness fallback: `a or b` returns `b` when `a` is `None` or
the empty string. -/
theorem pyOrS_falsy (a : Option PyStr) (b : PyStr)
    (h : a = none ∨ a = some []) : pyOrS a b = b := by
  rcases h with rfl | rfl <;> simp [pyOrS]

/-- The row identifier is the literal `"unknown"` when both `id` and
`customer_id` are absent or empty. -/
theorem cidOf_falsy (r : Row)
    (h1 : r (("id").toList) = none ∨ r (("id").toList) = some [])
    (h2 : r (("customer_id").toList) = none ∨ r (("customer_id").toList) = some []) :
    cidOf r = ("unknown").toList := by
  unfold cidOf
  rw [pyOrS_falsy _ _ h1, pyOrS_falsy _ _ h2]

/-- `main`'s logo-path pre-normalisation does not touch the identifier keys. -/
theorem preNormRow_cid (env : Env) (r : Row) :
    cidOf (preNormRow env r) = cidOf r := by
  unfold cidOf preNormRow
  rw [if_neg (by decide), if_neg (by decide)]

/-- C9: rows whose `id` and `customer_id` are both missing or falsy all
resolve to the identifier `"unknown"`, so their three output files are
named `unknown_loan.png`, `unknown_emi.png`, `unknown_bank.png`; when two
such rows occur in one run they write the same paths, and the file that
survives is the one written by the LATER row — the earlier row's cards are
silently overwritten. -/
theorem c9_unknown_collision (env : Env) (r1 r2 : Row)
    (h1 : r1 (("id").toList) = none ∨ r1 (("id").toList) = some [])
    (h2 : r1 (("customer_id").toList) = none ∨ r1 (("customer_id").toList) = some [])
    (h3 : r2 (("id").toList) = none ∨ r2 (("id").toList) = some [])
    (h4 : r2 (("customer_id").toList) = none ∨ r2 (("customer_id").toList) = some [])
    (ht1 : (envOpen env LOAN_TPL).isSome = true)
    (ht2 : (envOpen env EMI_TPL).isSome = true)
    (ht3 : (envOpen env BANK_TPL).isSome = true) :
    cidOf r1 = ("unknown").toList ∧ cidOf r2 = ("unknown").toList ∧
    (generate_card_for_row env (preNormRow env r1)).saved.map Prod.fst =
      [("assets/generated/unknown_loan.png").toList,
       ("assets/generated/unknown_emi.png").toList,
       ("assets/generated/unknown_bank.png").toList] ∧
    (generate_card_for_row env (preNormRow env r2)).saved.map Prod.fst =
      [("assets/generated/unknown_loan.png").toList,
       ("assets/generated/unknown_emi.png").toList,
       ("assets/generated/unknown_bank.png").toList] ∧
    lastWrite (processRows env [r1, r2]).2.2
        (("assets/generated/unknown_bank.png").toList) =
      lastWrite (generate_card_for_row env (preNormRow env r2)).saved
        (("assets/generated/unknown_bank.png").toList) := by
  obtain ⟨b1, hb1⟩ := Option.isSome_iff_exists.mp ht1
  obtain ⟨b2, hb2⟩ := Option.isSome_iff_exists.mp ht2
  obtain ⟨b3, hb3⟩ := Option.isSome_iff_exists.mp ht3
  have hc1 : cidOf r1 = ("unknown").toList := cidOf_falsy r1 h1 h2
  have hc2 : cidOf r2 = ("unknown").toList := cidOf_falsy r2 h3 h4
  have hp1 : cidOf (preNormRow env r1) = ("unknown").toList := by
    rw [preNormRow_cid]; exact hc1
  have hp2 : cidOf (preNormRow env r2) = ("unknown").toList := by
    rw [preNormRow_cid]; exact hc2
  have hgen : ∀ r : Row, cidOf r = ("unknown").toList →
      generate_card_for_row env r =
        ⟨[(("assets/generated/unknown_loan.png").toList, ⟨b1, loanOps env r⟩),
          (("assets/generated/unknown_emi.png").toList, ⟨b2, emiOps env r⟩),
          (("assets/generated/unknown_bank.png").toList, ⟨b3, bankOps env r⟩)],
         true⟩ := by
    intro r hr
    unfold generate_card_for_row
    rw [hb1, hb2, hb3, hr]
    rfl
  have dLoan : (decide
      ((("assets/generated/unknown_loan.png").toList : PyStr) =
        ("assets/generated/unknown_bank.png").toList)) = false := by decide
  have dEmi : (decide
      ((("assets/generated/unknown_emi.png").toList : PyStr) =
        ("assets/generated/unknown_bank.png").toList)) = false := by decide
  have dBank : (decide
      ((("assets/generated/unknown_bank.png").toList : PyStr) =
        ("assets/generated/unknown_bank.png").toList)) = true := by decide
  refine ⟨hc1, hc2, ?_, ?_, ?_⟩
  · rw [hgen _ hp1]; rfl
  · rw [hgen _ hp2]; rfl
  · show lastWrite (processRows env [r1, r2]).2.2 _ = _
    have hpr : (processRows env [r1, r2]).2.2 =
        (generate_card_for_row env (preNormRow env r1)).saved ++
        ((generate_card_for_row env (preNormRow env r2)).saved ++ []) := rfl
    rw [hpr, hgen _ hp1, hgen _ hp2]
    simp only [lastWrite, List.filter_append, List.filter_cons, List.filter_nil,
      dLoan, dEmi, dBank]
    rfl

/-- C9 witness: two keyless rows in the healthy-template world collide on
`unknown_*.png` and the second row's bank card is what survives. -/
theorem c9_witness :
    cidOf rowEmpty = ("unknown").toList ∧
    lastWrite (processRows envTriv [rowEmpty, rowNamed]).2.2
        (("assets/generated/unknown_bank.png").toList) =
      lastWrite (generate_card_for_row envTriv (preNormRow envTriv rowNamed)).saved
        (("assets/generated/unknown_bank.png").toList) := by
  have h := c9_unknown_collision envTriv rowEmpty rowNamed
    (Or.inl rfl) (Or.inl rfl) (Or.inl (by decide)) (Or.inl (by decide))
    (by decide) (by decide) (by decide)
  exact ⟨h.1, h.2.2.2.2⟩

/-- The character of a decimal digit is a digit. -/
theorem digitChar_isDigit (d : ℕ) (hd : d < 10) :
    (Char.ofNat (48 + d)).isDigit = true := by
  interval_cases d <;> decide

/-- `natDigits` never returns the empty string. -/
theorem natDigits_ne_nil (n : ℕ) : natDigits n ≠ [] := by
  unfold natDigits
  split <;> simp

/-- Every character of `natDigits n` is a decimal digit. -/
theorem natDigits_all_digit (n : ℕ) : ∀ c ∈ natDigits n, c.isDigit = true := by
  induction n using natDigits.induct with
  | case1 n h =>
    intro c hc
    unfold natDigits at hc
    rw [dif_pos h] at hc
    simp at hc
    subst hc
    exact digitChar_isDigit n h
  | case2 n h ih =>
    intro c hc
    unfold natDigits at hc
    rw [dif_neg h] at hc
    simp at hc
    rcases hc with hc | hc
    · exact ih c hc
    · subst hc
      exact digitChar_isDigit (n % 10) (Nat.mod_lt _ (by omega))

/-- `group3Rev` leaves strings of at most three characters unchanged. -/
theorem group3Rev_eq_self (l : PyStr)
    (h : ∀ (a b c d : Char) (rest : List Char), l = a :: b :: c :: d :: rest → False) :
    group3Rev l = l := by
  match l with
  | [] => simp [group3Rev]
  | [a] => simp [group3Rev]
  | [a, b] => simp [group3Rev]
  | [a, b, c] => simp [group3Rev]
  | a :: b :: c :: d :: rest => exact (h a b c d rest rfl).elim

/-- `group3Rev` maps nonempty strings to nonempty strings. -/
theorem group3Rev_ne_nil (r : PyStr) (h : r ≠ []) : group3Rev r ≠ [] := by
  induction r using group3Rev.induct with
  | case1 a b cc d rest ih => rw [group3Rev]; simp
  | case2 l h2 => rw [group3Rev_eq_self l h2]; exact h

/-- Every character of `group3Rev r` is a character of `r` or a comma. -/
theorem mem_group3Rev (r : PyStr) (c : Char) (h : c ∈ group3Rev r) :
    c ∈ r ∨ c = ',' := by
  induction r using group3Rev.induct with
  | case1 a b cc d rest ih =>
    rw [group3Rev] at h
    simp at h
    rcases h with h | h | h | h | h
    · left; simp [h]
    · left; simp [h]
    · left; simp [h]
    · right; exact h
    · rcases ih (by simpa using h) with h2 | h2
      · left; simp at h2; rcases h2 with h2 | h2 <;> simp [h2]
      · right; exact h2
  | case2 l h2 =>
    left
    rwa [group3Rev_eq_self l h2] at h

/-- Removing the commas from `group3Rev r` recovers `r` (when `r` itself is
comma-free): grouping inserts separators and nothing else. -/
theorem filter_group3Rev (r : PyStr) (h : (',' : Char) ∉ r) :
    (group3Rev r).filter (fun c => c != ',') = r := by
  induction r using group3Rev.induct with
  | case1 a b cc d rest ih =>
    have ha : (a != ',') = true := bne_iff_ne.mpr fun he => h (by simp [he])
    have hb : (b != ',') = true := bne_iff_ne.mpr fun he => h (by simp [he])
    have hc : (cc != ',') = true := bne_iff_ne.mpr fun he => h (by simp [he])
    have hcm : ((',' : Char) != ',') = false := by decide
    have hrest : (',' : Char) ∉ d :: rest := fun he => h (by simp [List.mem_cons.mp he])
    rw [group3Rev]
    simp only [List.filter_cons, ha, hb, hc, hcm, if_true, if_false]
    rw [ih hrest]
    simp
  | case2 l h2 =>
    rw [group3Rev_eq_self l h2]
    rw [List.filter_eq_self]
    intro a ha
    exact bne_iff_ne.mpr fun he => h (he ▸ ha)

/-- The output of `group3Rev` on a nonempty digit string is well grouped:
groups of three digits separated by commas with a shorter leftmost group. -/
theorem revGroupedOk_group3Rev (r : PyStr) (hne : r ≠ [])
    (hd : ∀ c ∈ r, c.isDigit = true) : revGroupedOk (group3Rev r) = true := by
  induction r using group3Rev.induct with
  | case1 a b cc d rest ih =>
    rw [group3Rev]
    have hX : group3Rev (d :: rest) ≠ [] := group3Rev_ne_nil _ (by simp)
    obtain ⟨x, X2, hX2⟩ := List.exists_cons_of_ne_nil hX
    rw [hX2]
    have hrec : revGroupedOk (group3Rev (d :: rest)) = true := by
      refine ih (by simp) ?_
      intro c hcm
      exact hd c (by simp [List.mem_cons.mp hcm])
    rw [hX2] at hrec
    simp [revGroupedOk, hd a (by simp), hd b (by simp), hd cc (by simp), hrec]
  | case2 l h2 =>
    rw [group3Rev_eq_self l h2]
    match l, hne, hd with
    | [a], _, hd => simp [revGroupedOk, hd a (by simp)]
    | [a, b], _, hd => simp [revGroupedOk, hd a (by simp), hd b (by simp)]
    | [a, b, c], _, hd =>
      simp [revGroupedOk, hd a (by simp), hd b (by simp), hd c (by simp)]
    | a :: b :: c :: d :: rest, _, _ => exact (h2 a b c d rest rfl).elim

/-- No comma occurs among the plain digits of a number. -/
theorem comma_not_mem_natDigits (n : ℕ) : (',' : Char) ∉ natDigits n := by
  intro h
  have := natDigits_all_digit n ',' h
  exact absurd this (by decide)

/-- Removing the commas from the grouped digits recovers the plain digits. -/
theorem filter_natGroup (n : ℕ) :
    (natGroup n).filter (fun c => c != ',') = natDigits n := by
  unfold natGroup
  rw [List.filter_reverse]
  rw [filter_group3Rev _ (by
    intro h
    rw [List.mem_reverse] at h
    exact comma_not_mem_natDigits n h)]
  rw [List.reverse_reverse]

/-- `pyRound` never falls more than one below its argument. -/
theorem pyRound_gt (q : ℚ) : q - 1 < (pyRound q : ℚ) := by
  have hf : q - 1 < (⌊q⌋ : ℚ) := Int.sub_one_lt_floor q
  unfold pyRound
  split
  · exact hf
  · split
    · push_cast
      linarith
    · split
      · exact hf
      · push_cast
        linarith

/-- Any rational of magnitude at least `2 ^ 1025` overflows the binary64
range: its correctly rounded 53-bit magnitude is at least `2 ^ 1024`, so
`toDouble` reports the non-finite result. -/
theorem toDouble_overflow (q : ℚ) (h : (2 : ℚ) ^ (1025 : ℤ) ≤ |q|) :
    toDouble q = none := by
  have hq : q ≠ 0 := by
    intro h0
    rw [h0] at h
    simp at h
    exact absurd h (not_le.mpr (by positivity))
  have ha0 : (0 : ℚ) < |q| := abs_pos.mpr hq
  have hle : ((2 : ℕ) : ℚ) ^ Int.log 2 |q| ≤ |q| :=
    Int.zpow_log_le_self (by norm_num) ha0
  have hlt : |q| < ((2 : ℕ) : ℚ) ^ (Int.log 2 |q| + 1) :=
    Int.lt_zpow_succ_log_self (by norm_num) _
  have hcast : ((2 : ℕ) : ℚ) = (2 : ℚ) := by norm_num
  rw [hcast] at hle hlt
  set e := Int.log 2 |q| with he
  have he1025 : (1025 : ℤ) ≤ e := by
    by_contra hc
    push_neg at hc
    have hh : (2 : ℚ) ^ (e + 1) ≤ (2 : ℚ) ^ (1025 : ℤ) := by
      apply zpow_le_zpow_right₀ (by norm_num)
      omega
    linarith
  have hexp : doubleExp q = e - 52 := by
    unfold doubleExp
    rw [← he]
    exact max_eq_left (by omega)
  have hp2 : (0 : ℚ) < (2 : ℚ) ^ ((e - 52 : ℤ)) := by positivity
  have hm := pyRound_gt (|q| * (2 : ℚ) ^ (-(e - 52) : ℤ))
  have hda : doubleAbs q =
      (pyRound (|q| * (2 : ℚ) ^ (-(e - 52) : ℤ)) : ℚ) * (2 : ℚ) ^ ((e - 52 : ℤ)) := by
    unfold doubleAbs
    rw [hexp]
  have hcancel : |q| * (2 : ℚ) ^ (-(e - 52) : ℤ) * (2 : ℚ) ^ ((e - 52 : ℤ)) = |q| := by
    rw [mul_assoc, ← zpow_add₀ (two_ne_zero), neg_add_cancel, zpow_zero, mul_one]
  have hgt : |q| - (2 : ℚ) ^ ((e - 52 : ℤ)) < doubleAbs q := by
    rw [hda]
    have hmm := mul_lt_mul_of_pos_right hm hp2
    calc |q| - (2 : ℚ) ^ ((e - 52 : ℤ))
        = (|q| * (2 : ℚ) ^ (-(e - 52) : ℤ) - 1) * (2 : ℚ) ^ ((e - 52 : ℤ)) := by
          rw [sub_mul, hcancel, one_mul]
      _ < _ := hmm
  have hsmall : (2 : ℚ) ^ ((e - 52 : ℤ)) ≤ |q| / 2 := by
    have h1 : (2 : ℚ) ^ ((e - 52 : ℤ)) ≤ (2 : ℚ) ^ ((e - 1 : ℤ)) := by
      apply zpow_le_zpow_right₀ (by norm_num)
      omega
    have h2 : (2 : ℚ) ^ ((e - 1 : ℤ)) * 2 = (2 : ℚ) ^ (e : ℤ) := by
      rw [← zpow_add_one₀ (two_ne_zero)]
      norm_num
    linarith
  have hbig : (2 : ℚ) ^ (1024 : ℤ) ≤ |q| / 2 := by
    have h2 : (2 : ℚ) ^ (1024 : ℤ) * 2 = (2 : ℚ) ^ (1025 : ℤ) := by
      rw [← zpow_add_one₀ (two_ne_zero)]
      norm_num
    linarith
  have hfinal : (2 : ℚ) ^ (1024 : ℤ) ≤ doubleAbs q := by linarith
  unfold toDouble
  rw [if_neg hq, if_pos hfinal]

/-- A parse (or finite-conversion) failure yields exactly the literal
`"N/A"`. -/
theorem format_currency_none (s : PyStr) (h : pyFloatParse s = none) :
    format_currency s = ("N/A").toList := by
  simp [format_currency, h]

/-- The exact value of the literal `1e400` overflows binary64. -/
theorem toDouble_ten_pow_400 :
    toDouble (((1 : ℤ) : ℚ) * (10 : ℚ) ^ ((400 : ℤ))) = none := by
  apply toDouble_overflow
  have h1 : (((1 : ℤ) : ℚ) * (10 : ℚ) ^ ((400 : ℤ))) = (10 : ℚ) ^ (400 : ℕ) := by
    rw [Int.cast_one, one_mul]
    rw [show ((400 : ℤ)) = ((400 : ℕ) : ℤ) by norm_num]
    exact zpow_natCast (10 : ℚ) 400
  rw [h1, abs_of_pos (by positivity)]
  have hnat : (2 : ℕ) ^ (1025 : ℕ) ≤ (10 : ℕ) ^ (400 : ℕ) := by
    calc (2 : ℕ) ^ (1025 : ℕ) ≤ (2 : ℕ) ^ (1200 : ℕ) :=
          Nat.pow_le_pow_right (by norm_num) (by norm_num)
      _ = ((2 : ℕ) ^ (3 : ℕ)) ^ (400 : ℕ) := by rw [← pow_mul]
      _ ≤ (10 : ℕ) ^ (400 : ℕ) := Nat.pow_le_pow_left (by norm_num) _
  have h2 : (2 : ℚ) ^ (1025 : ℕ) ≤ (10 : ℚ) ^ (400 : ℕ) := by
    exact_mod_cast hnat
  have h3 : (2 : ℚ) ^ (1025 : ℤ) = (2 : ℚ) ^ (1025 : ℕ) := by
    rw [show ((1025 : ℤ)) = ((1025 : ℕ) : ℤ) by norm_num]
    exact zpow_natCast (2 : ℚ) 1025
  rw [h3]
  exact h2

/-- C1 counterexample: the claim fails at the input `1e400`.  The string
parses under the decimal grammar (to the exact value `1 * 10 ^ 400`), yet
the program prints `"N/A"` — not the currency symbol followed by a grouped
number — because `float("1e400")` overflows to `inf` and `int(round(inf))`
raises the caught `OverflowError`.  (Verified against the interpreter:
`format_currency("1e400") == "N/A"`.) -/
theorem c1_counterexample :
    pyDecimalParse (("1e400").toList) = some (1, 400) ∧
    format_currency (("1e400").toList) = ("N/A").toList := by
  constructor
  · decide
  · apply format_currency_none
    unfold pyFloatParse
    rw [show pyDecimalParse (("1e400").toList) = some (1, 400) from by decide,
      Option.some_bind]
    exact toDouble_ten_pow_400

/-- C1 (amended): currency formatting through the real `float()` pipeline.
For every input string: when the string fails the decimal grammar, or its
value does not convert to a finite binary64 double (overflow, `inf`,
`nan`), the result is exactly the literal `"N/A"`; when it parses and
converts to the finite double value `v`, the result is the source's
currency prefix (the mojibake bytes of the rupee sign) followed by `v`
rounded half-to-even to an integer and grouped with thousands separators —
the output contains no decimal point, deleting its commas leaves exactly
the prefix, sign and decimal digits of the rounded value, and the digit
groups are threes from the right with a leftmost group of one to three
digits.  The function is total (never raises). -/
theorem c1_format_currency (s : PyStr) :
    (pyFloatParse s = none ∧ format_currency s = ("N/A").toList) ∨
    (∃ v : ℚ, pyFloatParse s = some v ∧
      format_currency s = RUPEE ++ pyFormatComma (pyRound v) ∧
      ('.' : Char) ∉ format_currency s ∧
      (format_currency s).filter (fun c => c != ',') =
        RUPEE ++ intDigitsRepr (pyRound v) ∧
      revGroupedOk ((natGroup (pyRound v).natAbs).reverse) = true) := by
  cases hp : pyFloatParse s with
  | none => exact Or.inl ⟨rfl, by simp [format_currency, hp]⟩
  | some v =>
    right
    refine ⟨v, rfl, by simp [format_currency, hp], ?_, ?_, ?_⟩
    · simp only [format_currency, hp]
      intro hmem
      rcases List.mem_append.mp hmem with h | h
      · exact absurd h (by decide)
      · unfold pyFormatComma at h
        rcases List.mem_append.mp h with h | h
        · split at h <;> simp at h
        · unfold natGroup at h
          rw [List.mem_reverse] at h
          rcases mem_group3Rev _ _ h with h2 | h2
          · rw [List.mem_reverse] at h2
            have hdig := natDigits_all_digit _ _ h2
            exact absurd hdig (by decide)
          · exact absurd h2 (by decide)
    · simp only [format_currency, hp]
      rw [List.filter_append]
      have hR : RUPEE.filter (fun c => c != ',') = RUPEE := by decide
      rw [hR]
      unfold pyFormatComma intDigitsRepr
      rw [List.filter_append, filter_natGroup]
      by_cases hz : pyRound v < 0
      · simp [hz]
      · simp [hz]
    · have hrw : (natGroup (pyRound v).natAbs).reverse =
          group3Rev ((natDigits (pyRound v).natAbs).reverse) := by
        unfold natGroup
        rw [List.reverse_reverse]
      rw [hrw]
      refine revGroupedOk_group3Rev _ ?_ ?_
      · simp [natDigits_ne_nil]
      · intro c hc
        rw [List.mem_reverse] at hc
        exact natDigits_all_digit _ c hc

/-- Editing the last line keeps the number of lines. -/
theorem editLast_length (g : PyStr → PyStr) (L : List PyStr) :
    (editLast g L).length = L.length := by
  induction L with
  | nil => rfl
  | cons a t ih =>
    cases t with
    | nil => rfl
    | cons b t2 =>
      show (a :: editLast g (b :: t2)).length = (a :: b :: t2).length
      simp only [List.length_cons]
      rw [ih]
      simp

/-- Every size tried by the descending search lies between `lo` and `start`. -/
theorem searchSizesAux_mem (fuel start lo : ℕ) :
    ∀ x ∈ searchSizesAux fuel start lo, lo ≤ x ∧ x ≤ start := by
  induction fuel generalizing start with
  | zero => simp [searchSizesAux]
  | succ f ih =>
    intro x hx
    rw [searchSizesAux] at hx
    by_cases h : start < lo
    · simp [h] at hx
    · simp [h] at hx
      rcases hx with rfl | hx2
      · omega
      · have := ih (start - 2) x hx2
        omega

/-- The descending size search is strictly decreasing. -/
theorem searchSizesAux_pairwise (fuel start lo : ℕ) (hlo : 1 ≤ lo) :
    List.Pairwise (fun a b => b < a) (searchSizesAux fuel start lo) := by
  induction fuel generalizing start with
  | zero => simp [searchSizesAux]
  | succ f ih =>
    rw [searchSizesAux]
    by_cases h : start < lo
    · simp [h]
    · simp [h]
      refine ⟨?_, ih (start - 2)⟩
      intro y hy
      have := searchSizesAux_mem f (start - 2) lo y hy
      omega

/-- When the size loop exhausts, no tried size fits the box height. -/
theorem fitLoop_none (M : Measurer) (fam : PyStr) (boxW boxH : ℕ) (text : PyStr)
    (l : List ℕ) (h : fitLoop M fam boxW boxH text l = none) :
    ∀ t ∈ l, ¬ (lineHeight M fam t * (wrap M fam t boxW text).length ≤ boxH) := by
  induction l with
  | nil => simp
  | cons s rest ih =>
    intro t ht
    rw [fitLoop] at h
    by_cases hs : lineHeight M fam s * (wrap M fam s boxW text).length ≤ boxH
    · simp [hs] at h
    · simp [hs] at h
      rcases List.mem_cons.mp ht with rfl | ht2
      · exact hs
      · exact ih h t ht2

/-- When the size loop returns `(s, ls)`: `s` was tried, `ls` is the wrap of
the text at `s`, its block height fits, and every larger tried size fails —
so `s` is the first fitting size of the descending search. -/
theorem fitLoop_some (M : Measurer) (fam : PyStr) (boxW boxH : ℕ) (text : PyStr)
    (l : List ℕ) (s : ℕ) (ls : List PyStr)
    (hp : List.Pairwise (fun a b => b < a) l)
    (h : fitLoop M fam boxW boxH text l = some (s, ls)) :
    s ∈ l ∧ ls = wrap M fam s boxW text ∧
    lineHeight M fam s * ls.length ≤ boxH ∧
    ∀ t ∈ l, s < t →
      ¬ (lineHeight M fam t * (wrap M fam t boxW text).length ≤ boxH) := by
  induction l with
  | nil => simp [fitLoop] at h
  | cons a rest ih =>
    rw [fitLoop] at h
    by_cases ha : lineHeight M fam a * (wrap M fam a boxW text).length ≤ boxH
    · simp [ha] at h
      obtain ⟨rfl, hls⟩ := h
      subst hls
      refine ⟨by simp, rfl, ha, ?_⟩
      intro t htmem hlt
      rcases List.mem_cons.mp htmem with rfl | ht2
      · omega
      · have := (List.pairwise_cons.mp hp).1 t ht2
        omega
    · simp [ha] at h
      have hrest := ih (List.pairwise_cons.mp hp).2 h
      refine ⟨List.mem_cons_of_mem _ hrest.1, hrest.2.1, hrest.2.2.1, ?_⟩
      intro t htmem hlt
      rcases List.mem_cons.mp htmem with rfl | ht2
      · exact ha
      · exact hrest.2.2.2 t ht2 hlt

/-- C5: shrink-to-fit height bound.  For every text, font family,
`start_size ≥ min_size ≥ 1` and every box at least one line tall at
`min_size` (`lineHeight(min_size) ≤ boxH`): the block returned by `fit` has
total height `line_height * line_count ≤ boxH`; and whenever some size of
the descending search fits, the returned size is a fitting size of the
search that is `≥` every fitting size — i.e. the FIRST fitting size in
descending order — with the returned lines being the wrap at that size. -/
theorem c5_shrink_to_fit (M : Measurer) (fam text : PyStr) (boxW boxH start lo : ℕ)
    (hlo : 1 ≤ lo) (_hstart : lo ≤ start)
    (hbox : lineHeight M fam lo ≤ boxH) :
    lineHeight M fam (fit M fam text boxW boxH start lo).1 *
      (fit M fam text boxW boxH start lo).2.length ≤ boxH ∧
    (∀ s ∈ searchSizes start lo,
      lineHeight M fam s * (wrap M fam s boxW text).length ≤ boxH →
      (fit M fam text boxW boxH start lo).1 ∈ searchSizes start lo ∧
      s ≤ (fit M fam text boxW boxH start lo).1 ∧
      (fit M fam text boxW boxH start lo).2 =
        wrap M fam (fit M fam text boxW boxH start lo).1 boxW text) := by
  unfold fit
  cases hfl : fitLoop M fam boxW boxH text (searchSizes start lo) with
  | some r =>
    obtain ⟨s0, ls0⟩ := r
    have hspec := fitLoop_some M fam boxW boxH text _ s0 ls0
      (searchSizesAux_pairwise _ _ _ hlo) hfl
    constructor
    · exact hspec.2.2.1
    · intro s hs hfits
      refine ⟨hspec.1, ?_, hspec.2.1⟩
      by_contra hlt
      push_neg at hlt
      exact hspec.2.2.2 s hs hlt hfits
  | none =>
    constructor
    · rw [editLast_length, List.length_take]
      rcases Nat.eq_zero_or_pos (lineHeight M fam lo) with h0 | hpos
      · rw [h0]; simp
      · have h1 : 1 ≤ boxH / lineHeight M fam lo :=
          (Nat.one_le_div_iff hpos).mpr hbox
        have hmax : max 1 (boxH / lineHeight M fam lo) =
            boxH / lineHeight M fam lo := by omega
        rw [hmax]
        calc lineHeight M fam lo *
            min (boxH / lineHeight M fam lo) (wrap M fam lo boxW text).length
            ≤ lineHeight M fam lo * (boxH / lineHeight M fam lo) :=
              Nat.mul_le_mul_left _ (Nat.min_le_left _ _)
          _ ≤ boxH := by
              rw [Nat.mul_comm]
              exact Nat.div_mul_le_self boxH (lineHeight M fam lo)
    · intro s hs hfits
      exact absurd hfits (fitLoop_none M fam boxW boxH text _ hfl s hs)

/-- C5 witness: a concrete measurer, text and box; the two-line block
chosen at the very first size 10 has height 20 ≤ 25. -/
theorem c5_witness :
    lineHeight measurerW (("F").toList)
        (fit measurerW (("F").toList) (("hello world").toList) 100 25 10 2).1 *
      (fit measurerW (("F").toList) (("hello world").toList) 100 25 10 2).2.length ≤
      25 :=
  (c5_shrink_to_fit measurerW (("F").toList) (("hello world").toList) 100 25 10 2
    (by decide) (by decide) (by decide)).1

end CardGen
